import Mathlib

/-!
# Verification of the Docker plugin lifecycle Manager (`plugin/manager.go`)

Shallow embedding of the plugin Manager's startup recovery (`reload`,
`loadPlugin`, `NewManager`) and its exit-event handler (`StateChanged`),
together with proofs of the specification's claims about them.

External collaborators that are not part of the source under verification
(the Plugin Store, the `v2.Plugin` record type, the full-ID regular
expression) are modelled from the specification's description, as noted on
each definition.  Filesystem reads, directory creation, process reattach,
unmount and enable are effectful calls of the Go code; the embedding makes
them explicit: their outcomes are supplied by an environment/oracle and
their invocations are recorded in an event trace, so that ordering and
"was it called at all" properties become statements about the trace.
-/

namespace DockerPlugin

/-- One entry of `Config.Interface.Types` of a plugin record: a declared
capability with its type, its name prefix (Go field `Prefix`, renamed here
because `Prefix` collides with a Lean keyword-like token) and a version
string. Modelled from the spec: `Interface.Types` is an "ordered list of
declared capabilities, each with a capability name, a name-prefix, and a
version string". -/
structure InterfaceType where
  Capability : String
  Pfx : String
  Version : String
deriving DecidableEq, Repr

/-- The interface section of a plugin's persisted config. -/
structure PluginInterface where
  Types : List InterfaceType
deriving DecidableEq, Repr

/-- The persisted config of a plugin record (the part the Manager reads:
the declared capabilities and the declared mount-propagation path
`Config.PropagatedMount`). -/
structure PluginConfig where
  Interface : PluginInterface
  PropagatedMount : String
deriving DecidableEq, Repr

/-- The serialized plugin object: identity, human name, enabled flag and
config.  Modelled from the spec: "persisted, versioned description of one
plugin (identity, enabled flag, runtime paths, interface capabilities)". -/
structure PluginObj where
  ID : String
  Name : String
  Enabled : Bool
  Config : PluginConfig
deriving DecidableEq, Repr

/-- The in-memory plugin record `v2.Plugin`: the serialized object plus the
runtime paths `Rootfs` and `PropagatedMount`, which `json.Unmarshal` also
fills from `config.json` when present there. Modelled from the spec's data
model (§3). -/
structure Plugin where
  PluginObj : PluginObj
  Rootfs : String
  PropagatedMount : String
deriving DecidableEq, Repr

/-- `p.GetID()` of `v2.Plugin`: the record's identity. -/
def Plugin.GetID (p : Plugin) : String := p.PluginObj.ID

/-- `p.IsEnabled()` of `v2.Plugin`: the persisted enabled intent. -/
def Plugin.IsEnabled (p : Plugin) : Bool := p.PluginObj.Enabled

/-- Modelled from the spec: `validFullID` matches directory names that are
full plugin IDs, a "fixed-length lowercase hex string" — 64 lowercase hex
characters (§8: "one directory named with 64 lowercase hex characters"). -/
def validFullID (s : String) : Bool :=
  s.length == 64 && s.data.all (fun c => c.isDigit || ('a' ≤ c && c ≤ 'f'))

/-- `filepath.Join` restricted to the way the Manager uses it: joining
non-empty relative components with the path separator. -/
def joinPath (a b : String) : String := a ++ "/" ++ b

/-- The configuration bundle `ManagerConfig` (the fields the embedded code
reads: the root directory, the exec root and the live-restore flag). -/
structure ManagerConfig where
  Root : String
  ExecRoot : String
  LiveRestoreEnabled : Bool
deriving Repr

/-- The state of a Go channel used as a one-shot signal. -/
inductive ChanState where
  | isOpen
  | closed
deriving DecidableEq, Repr

/-- The per-plugin `controller`: restart intent, optional exit channel
(`none` embeds a nil channel) and the shutdown timeout budget. -/
structure controller where
  restart : Bool
  exitChan : Option ChanState
  timeoutInSecs : Nat
deriving DecidableEq, Repr

/-- Observable effectful calls the Manager makes, recorded in traces. -/
inductive Event where
  /-- `Store.SetAll(plugins)` with the IDs of the installed records. -/
  | setAll (ids : List String)
  /-- `Store.Update(p)` keyed by `p.GetID()`. -/
  | storeUpdate (id : String)
  /-- `os.MkdirAll(path, mode)`. -/
  | mkdir (path : String) (mode : Nat)
  /-- `pm.enable(p, c, true)` for the plugin with this ID. -/
  | enableCall (id : String)
  /-- `close(c.exitChan)` for the plugin with this ID. -/
  | closeExit (id : String)
  /-- `p.RemoveFromDisk()` for the plugin with this ID. -/
  | removeFromDisk (id : String)
  /-- `mount.Unmount(path)` with its outcome (`Unmount` errors are only
  logged, so the outcome influences nothing downstream). -/
  | unmount (path : String) (ok : Bool)
  /-- `pm.restorePlugin(p)` (reattach bookkeeping) for this ID. -/
  | restoreCall (id : String)
deriving DecidableEq, Repr

/-- The filesystem as `reload` observes it: whether the root directory is
readable, its entry names, and for each entry the decoded record of
`{Root}/{entry}/config.json` — `none` when the file is missing, unreadable
or fails to JSON-decode. -/
structure Env where
  rootOk : Bool
  rootEntries : List String
  config : String → Option Plugin

/-- Outcomes of the effectful calls a Phase-2 recovery task makes:
whether reattach (`restorePlugin`) succeeds for a plugin ID, whether
`os.MkdirAll` succeeds for a path, and whether `enable` succeeds for a
plugin ID.  `enableOk` has no influence on any result (the code only logs
the error), which the theorems make explicit. -/
structure Oracle where
  restoreOk : String → Bool
  mkdirOk : String → Bool
  enableOk : String → Bool

/-- The Plugin Store's contents as a finite map from identity to record.
Modelled from the spec: the Store is an "authoritative in-memory index of
plugin objects, consulted/updated by ID"; records pass by value here, the
Store's view changing only at `SetAll` and `Update` (§4.2 "Publishes the
updated record back to the Plugin Store"). -/
abbrev PMap : Type := List (String × Plugin)

/-- Insert/overwrite one binding (Go map assignment `m[k] = v`). -/
def mapInsert (m : PMap) (k : String) (v : Plugin) : PMap :=
  (List.filter (fun kv => kv.1 != k) m) ++ [(k, v)]

/-- Lookup (Go map read `m[k]`, `ok` form). -/
def mapLookup (m : PMap) (k : String) : Option Plugin :=
  (List.find? (fun kv => kv.1 == k) m).map (fun kv => kv.2)

/-- `loadPlugin(id)`: read and decode `{Root}/{id}/config.json`; any read
or decode error is returned to the caller. -/
def loadPlugin (env : Env) (id : String) : Except String Plugin :=
  match env.config id with
  | some p => Except.ok p
  | none => Except.error ("error reading " ++ id)

/-- Phase 1 of `reload`: walk the root directory's entries in order; every
entry whose name matches `validFullID` is loaded, any load error aborts the
whole phase, and successes are collected into a map keyed by `p.GetID()`. -/
def phase1Aux (env : Env) : List String → PMap → Except String PMap
  | [], m => Except.ok m
  | name :: rest, m =>
    if validFullID name then
      match loadPlugin env name with
      | Except.error e => Except.error e
      | Except.ok p => phase1Aux env rest (mapInsert m p.GetID p)
    else phase1Aux env rest m

def phase1 (env : Env) : Except String PMap :=
  phase1Aux env env.rootEntries []

/-- Character-list core of `strings.HasPrefix`. -/
def hasPfxChars : List Char → List Char → Bool
  | [], _ => true
  | _ :: _, [] => false
  | a :: as, b :: bs => a == b && hasPfxChars as bs

/-- `strings.HasPrefix(s, pre)`, evaluated on the underlying character
lists (equivalent to `String.startsWith`, but reducible by the kernel). -/
def hasPfx (pre s : String) : Bool := hasPfxChars pre.data s.data

/-- The capability test of `reload`'s rootfs-propagation loop:
`(typ.Capability == "volumedriver" || typ.Capability == "graphdriver") &&
typ.Prefix == "docker" && strings.HasPrefix(typ.Version, "1.")`. -/
def matchingType (t : InterfaceType) : Bool :=
  (t.Capability == "volumedriver" || t.Capability == "graphdriver") &&
    t.Pfx == "docker" && hasPfx "1." t.Version

/-- The `for _, typ := range p.PluginObj.Config.Interface.Types` loop of a
Phase-2 task: for each matching capability with a non-empty declared
mount-propagation path, set `p.PropagatedMount` to the join of `p.Rootfs`
and that path and call `os.MkdirAll(p.PropagatedMount, 0755)`; a MkdirAll
error returns from the task early.  Result: the record after the loop, the
trace of MkdirAll calls, and whether the loop ran to completion (`false`
means the early `return` was taken). -/
def propLoop (o : Oracle) (p : Plugin) : List InterfaceType → Plugin × List Event × Bool
  | [] => (p, [], true)
  | typ :: rest =>
    if matchingType typ then
      if p.PluginObj.Config.PropagatedMount != "" then
        let pmPath := joinPath p.Rootfs p.PluginObj.Config.PropagatedMount
        let p1 : Plugin := { p with PropagatedMount := pmPath }
        if o.mkdirOk pmPath then
          let r := propLoop o p1 rest
          (r.1, Event.mkdir pmPath 493 :: r.2.1, r.2.2)
        else
          (p1, [Event.mkdir pmPath 493], false)
      else propLoop o p rest
    else propLoop o p rest

/-- Outcome of one Phase-2 recovery task: the record as the task left it,
the task's event trace, whether `Store.Update` was reached, and whether an
`enable` attempt was made. -/
structure TaskResult where
  plugin : Plugin
  events : List Event
  published : Bool
  enableAttempted : Bool
deriving DecidableEq, Repr

/-- The `Rootfs` rewrite of a Phase-2 task:
`if p.Rootfs != "" { p.Rootfs = filepath.Join(pm.config.Root, p.PluginObj.ID, "rootfs") }`. -/
def rewriteRootfs (cfg : ManagerConfig) (p : Plugin) : Plugin :=
  if p.Rootfs != "" then
    { p with Rootfs := joinPath (joinPath cfg.Root p.PluginObj.ID) "rootfs" }
  else p

/-- One Phase-2 recovery task (the goroutine body of `reload`):
reattach via `restorePlugin` (failure logs and ends the task), rewrite
`Rootfs` through `rewriteRootfs`, run the propagation loop (a MkdirAll
failure logs and ends the task), publish via `Store.Update`, and finally
call `enable` when live-restore is off and the record is enabled (an
enable error is only logged). -/
def phase2Task (cfg : ManagerConfig) (o : Oracle) (p : Plugin) : TaskResult :=
  if o.restoreOk p.GetID = false then
    ⟨p, [Event.restoreCall p.GetID], false, false⟩
  else
    let p1 := rewriteRootfs cfg p
    let r := propLoop o p1 p1.PluginObj.Config.Interface.Types
    if r.2.2 then
      let p2 := r.1
      let attempted := !cfg.LiveRestoreEnabled && p2.IsEnabled
      ⟨p2, Event.restoreCall p.GetID :: r.2.1 ++ [Event.storeUpdate p2.GetID]
          ++ (if attempted then [Event.enableCall p2.GetID] else []),
        true, attempted⟩
    else
      ⟨r.1, Event.restoreCall p.GetID :: r.2.1, false, false⟩

/-- Apply the `Store.Update` calls of the tasks, in task order, to the
Store contents left by `SetAll`. -/
def applyTasks (m : PMap) : List TaskResult → PMap
  | [] => m
  | t :: ts => applyTasks (if t.published then mapInsert m t.plugin.GetID t.plugin else m) ts

/-- The outcome of a `reload` (or `NewManager`) run: the error result, the
map Phase 1 built, the Phase-2 task outcomes, the Plugin Store's final
contents, and the overall event trace. -/
structure ReloadRun where
  result : Except String Unit
  phase1Map : PMap
  tasks : List TaskResult
  store : PMap
  events : List Event

/-- `Manager.reload`, acting on a Store with contents `store0`: Phase 1
scans and loads (any failure aborts with no Store call); on success the map
is installed wholesale via `SetAll` and one recovery task runs per loaded
record, after which all task effects are reflected in the outcome. -/
def reload (cfg : ManagerConfig) (env : Env) (o : Oracle) (store0 : PMap) : ReloadRun :=
  if !env.rootOk then ⟨Except.error ("failed to read " ++ cfg.Root), [], [], store0, []⟩
  else
    match phase1 env with
    | Except.error e => ⟨Except.error e, [], [], store0, []⟩
    | Except.ok m =>
      let tasks := m.map (fun kv => phase2Task cfg o kv.2)
      ⟨Except.ok (), m, tasks, applyTasks m tasks,
        Event.setAll (m.map (fun kv => kv.1)) :: (tasks.map TaskResult.events).flatten⟩

/-- Outcomes of `NewManager`'s own effectful pre-steps: the two MkdirAll
calls and obtaining the Execution Engine client. -/
structure NMEnv where
  mkdirRootOk : Bool
  mkdirExecRootOk : Bool
  executorClientOk : Bool

/-- `NewManager`: create `Root` and `ExecRoot` (failure is fatal), obtain
the Executor client (failure is fatal), then run `reload` (its error is
propagated). -/
def NewManager (nm : NMEnv) (cfg : ManagerConfig) (env : Env) (o : Oracle)
    (store0 : PMap) : ReloadRun :=
  if !nm.mkdirRootOk then
    ⟨Except.error ("failed to create " ++ cfg.Root), [], [], store0, []⟩
  else if !nm.mkdirExecRootOk then
    ⟨Except.error ("failed to create " ++ cfg.ExecRoot), [], [], store0, []⟩
  else if !nm.executorClientOk then
    ⟨Except.error "failed to create containerd client", [], [], store0, []⟩
  else reload cfg env o store0

/-- The state argument of `StateChanged` (only `StateExit` is handled). -/
inductive PState where
  | stateExit
  | other
deriving DecidableEq, Repr

/-- Result of a `StateChanged` call: normal return with the updated
Controller table and the trace of effects, an error return, or a Go
runtime panic (nil-Controller dereference, or `close` of a closed
channel). -/
inductive SCResult where
  | ok (cMap : String → Option controller) (events : List Event)
  | errRes (msg : String) (cMap : String → Option controller) (events : List Event)
  | panicRes

/-- `Manager.StateChanged`: on `StateExit`, resolve the record by ID in
the Store (an unknown ID returns the lookup error); read the Controller
from `cMap` (a missing entry makes `c` nil and the `c.exitChan` access
fault); close `exitChan` when non-nil; `RemoveFromDisk`; attempt
`mount.Unmount(p.PropagatedMount)` when non-empty, its outcome `uo`
affecting only the recorded event; finally `enable` when the restart
intent read under the lock was set.  Other states do nothing. -/
def StateChanged (store : PMap) (cMap : String → Option controller)
    (uo : String → Bool) (id : String) (st : PState) : SCResult :=
  match st with
  | PState.other => SCResult.ok cMap []
  | PState.stateExit =>
    match mapLookup store id with
    | none => SCResult.errRes "plugin not found" cMap []
    | some p =>
      match cMap id with
      | none => SCResult.panicRes
      | some c =>
        match c.exitChan with
        | some ChanState.closed => SCResult.panicRes
        | some ChanState.isOpen =>
          let c1 : controller := { c with exitChan := some ChanState.closed }
          SCResult.ok (fun k => if k == id then some c1 else cMap k)
            ([Event.closeExit id, Event.removeFromDisk id]
              ++ (if p.PropagatedMount != "" then
                    [Event.unmount p.PropagatedMount (uo p.PropagatedMount)] else [])
              ++ (if c.restart then [Event.enableCall p.GetID] else []))
        | none =>
          SCResult.ok cMap
            ([Event.removeFromDisk id]
              ++ (if p.PropagatedMount != "" then
                    [Event.unmount p.PropagatedMount (uo p.PropagatedMount)] else [])
              ++ (if c.restart then [Event.enableCall p.GetID] else []))

/-! ## Concrete sample data (used by the witnesses) -/

def idA : String :=
  "aaaaaaaaaaaaaaaaaaaaaaaaaaaaaaaaaaaaaaaaaaaaaaaaaaaaaaaaaaaaaaaa"

def idB : String :=
  "bbbbbbbbbbbbbbbbbbbbbbbbbbbbbbbbbbbbbbbbbbbbbbbbbbbbbbbbbbbbbbbb"

def cfgA : ManagerConfig := ⟨"/var/lib/docker/plugins", "/run/docker/plugins", false⟩

def pluginA : Plugin :=
  ⟨⟨idA, "sample-a", true, ⟨⟨[⟨"volumedriver", "docker", "1.0"⟩]⟩, "pmount"⟩⟩,
    "/oldroot-a", ""⟩

def pluginB : Plugin :=
  ⟨⟨idB, "sample-b", true, ⟨⟨[⟨"graphdriver", "docker", "1.1"⟩]⟩, ""⟩⟩,
    "/oldroot-b", ""⟩

def oracleOK : Oracle := ⟨fun _ => true, fun _ => true, fun _ => true⟩

/-- An oracle whose reattach fails exactly for `idB`. -/
def oracleFailB : Oracle := ⟨fun i => !(i == idB), fun _ => true, fun _ => true⟩

/-- A root with one matching entry whose `config.json` does not decode. -/
def envBad : Env := ⟨true, [idA], fun _ => none⟩

/-- A root with one matching and one non-matching entry, the latter with a
perfectly valid config. -/
def envMix : Env :=
  ⟨true, [idA, "README"], fun n => if n == idA then some pluginA else some pluginB⟩

/-- A root with two valid plugin directories. -/
def envTwo : Env :=
  ⟨true, [idA, idB],
    fun n => if n == idA then some pluginA else if n == idB then some pluginB else none⟩

def mTwo : PMap := [(idA, pluginA), (idB, pluginB)]

def storeA : PMap := [(idA, pluginA)]

def cA : controller := ⟨true, some ChanState.isOpen, 10⟩

def cMapA : String → Option controller := fun k => if k == idA then some cA else none

/-- A record persisted with an empty `Rootfs` field. -/
def pluginNoRootfs : Plugin :=
  ⟨⟨idB, "sample-norootfs", false, ⟨⟨[]⟩, ""⟩⟩, "", ""⟩

/-! ## Association-map lemmas -/

theorem mapLookup_nil (k : String) : mapLookup [] k = none := rfl

theorem mapLookup_insert_self (m : PMap) (k : String) (v : Plugin) :
    mapLookup (mapInsert m k v) k = some v := by
  induction m with
  | nil => simp [mapInsert, mapLookup]
  | cons a rest ih =>
    by_cases h : a.1 = k
    · rw [show mapInsert (a :: rest) k v = mapInsert rest k v from by
        simp [mapInsert, List.filter_cons, h]]
      exact ih
    · have h1 : mapInsert (a :: rest) k v = a :: mapInsert rest k v := by
        simp [mapInsert, List.filter_cons, h]
      rw [h1]
      unfold mapLookup
      rw [List.find?_cons_of_neg _ (by simpa using h)]
      exact ih

theorem mapLookup_insert_ne (m : PMap) (k k' : String) (v : Plugin) (h : k' ≠ k) :
    mapLookup (mapInsert m k v) k' = mapLookup m k' := by
  induction m with
  | nil =>
    have hkk : k ≠ k' := fun hh => h hh.symm
    show mapLookup [(k, v)] k' = mapLookup [] k'
    unfold mapLookup
    rw [List.find?_cons_of_neg _ (by simpa using hkk)]
  | cons a rest ih =>
    by_cases ha : a.1 = k
    · have h1 : mapInsert (a :: rest) k v = mapInsert rest k v := by
        simp [mapInsert, List.filter_cons, ha]
      have hne : a.1 ≠ k' := by rw [ha]; exact fun hh => h hh.symm
      have h2 : mapLookup (a :: rest) k' = mapLookup rest k' := by
        unfold mapLookup
        rw [List.find?_cons_of_neg _ (by simpa using hne)]
      rw [h1, h2]; exact ih
    · have h1 : mapInsert (a :: rest) k v = a :: mapInsert rest k v := by
        simp [mapInsert, List.filter_cons, ha]
      rw [h1]
      by_cases ha' : a.1 = k'
      · unfold mapLookup
        rw [List.find?_cons_of_pos _ (by simpa using ha'),
          List.find?_cons_of_pos _ (by simpa using ha')]
      · unfold mapLookup
        rw [List.find?_cons_of_neg _ (by simpa using ha'),
          List.find?_cons_of_neg _ (by simpa using ha')]
        exact ih

theorem mem_mapInsert (m : PMap) (k : String) (v : Plugin) (kv : String × Plugin)
    (h : kv ∈ mapInsert m k v) : kv ∈ m ∨ kv = (k, v) := by
  rcases List.mem_append.mp h with h1 | h2
  · exact Or.inl (List.mem_of_mem_filter h1)
  · exact Or.inr (by simpa using h2)

theorem keys_mapInsert (m : PMap) (k : String) (v : Plugin) :
    (mapInsert m k v).map Prod.fst =
      ((m.map Prod.fst).filter (fun x => x != k)) ++ [k] := by
  induction m with
  | nil => rfl
  | cons a rest ih =>
    by_cases h : a.1 = k
    · simpa [mapInsert, List.filter_cons, h] using ih
    · have hb : (a.1 != k) = true := by simp [h]
      simp only [mapInsert] at ih ⊢
      simp only [List.map_cons, List.filter_cons, hb, if_true]
      simp [ih]

theorem nodupKeys_mapInsert (m : PMap) (k : String) (v : Plugin)
    (h : (m.map Prod.fst).Nodup) : ((mapInsert m k v).map Prod.fst).Nodup := by
  rw [keys_mapInsert]
  apply List.Nodup.append (h.filter _) (List.nodup_singleton k)
  intro x hx hk
  rcases List.mem_filter.mp hx with ⟨_, hne⟩
  rcases List.mem_singleton.mp hk with rfl
  simp at hne

theorem mapLookup_of_mem (m : PMap) (kv : String × Plugin)
    (hnd : (m.map Prod.fst).Nodup) (h : kv ∈ m) : mapLookup m kv.1 = some kv.2 := by
  induction m with
  | nil => cases h
  | cons a rest ih =>
    rcases List.mem_cons.mp h with rfl | hmem
    · simp [mapLookup]
    · have hane : a.1 ≠ kv.1 := by
        intro he
        have : a.1 ∈ rest.map Prod.fst := he ▸ List.mem_map_of_mem Prod.fst hmem
        exact (List.nodup_cons.mp hnd).1 this
      have : (a.1 == kv.1) = false := by simpa using hane
      simpa [mapLookup, this] using ih (List.nodup_cons.mp hnd).2 hmem

theorem mapLookup_isSome_insert (m : PMap) (k k' : String) (v : Plugin)
    (h : (mapLookup m k').isSome) : (mapLookup (mapInsert m k v) k').isSome := by
  by_cases he : k' = k
  · subst he; simp [mapLookup_insert_self]
  · rwa [mapLookup_insert_ne m k k' v he]

/-! ## Phase-1 lemmas -/

theorem loadPlugin_ok_iff (env : Env) (id : String) (p : Plugin) :
    loadPlugin env id = Except.ok p ↔ env.config id = some p := by
  unfold loadPlugin
  cases hc : env.config id <;> simp

/-- Phase 1 succeeds only if every entry matching the full-ID format had a
readable, decodable `config.json`. -/
theorem phase1Aux_ok_all_loaded (env : Env) :
    ∀ (l : List String) (m m' : PMap), phase1Aux env l m = Except.ok m' →
    ∀ name ∈ l, validFullID name = true → (env.config name).isSome := by
  intro l
  induction l with
  | nil =>
    intro m m' _ name hn
    simp at hn
  | cons a rest ih =>
    intro m m' h name hn hv
    simp only [phase1Aux] at h
    by_cases ha : validFullID a = true
    · rw [if_pos ha] at h
      split at h
      · simp at h
      · rename_i p heq
        rcases List.mem_cons.mp hn with rfl | hmem
        · rw [(loadPlugin_ok_iff env name p).mp heq]; rfl
        · exact ih _ _ h name hmem hv
    · rw [if_neg ha] at h
      rcases List.mem_cons.mp hn with rfl | hmem
      · exact absurd hv ha
      · exact ih _ _ h name hmem hv

/-- Keys present in the accumulator stay present through Phase 1. -/
theorem phase1Aux_lookup_mono (env : Env) :
    ∀ (l : List String) (m m' : PMap) (k : String), phase1Aux env l m = Except.ok m' →
    (mapLookup m k).isSome → (mapLookup m' k).isSome := by
  intro l
  induction l with
  | nil =>
    intro m m' k h hk
    cases h; exact hk
  | cons a rest ih =>
    intro m m' k h hk
    simp only [phase1Aux] at h
    by_cases ha : validFullID a = true
    · rw [if_pos ha] at h
      split at h
      · simp at h
      · rename_i p _
        exact ih _ _ _ h (mapLookup_isSome_insert _ _ _ _ hk)
    · rw [if_neg ha] at h
      exact ih _ _ _ h hk

/-- Every matching entry whose config decodes has its plugin's identity
present in the Phase-1 result. -/
theorem phase1Aux_complete (env : Env) :
    ∀ (l : List String) (m m' : PMap), phase1Aux env l m = Except.ok m' →
    ∀ name ∈ l, validFullID name = true →
    ∀ p, env.config name = some p → (mapLookup m' p.GetID).isSome := by
  intro l
  induction l with
  | nil =>
    intro m m' _ name hn
    simp at hn
  | cons a rest ih =>
    intro m m' h name hn hv p hp
    simp only [phase1Aux] at h
    rcases List.mem_cons.mp hn with rfl | hmem
    · rw [if_pos hv] at h
      split at h
      · simp at h
      · rename_i q heq
        have hq : env.config name = some q := (loadPlugin_ok_iff env name q).mp heq
        have : q = p := Option.some.inj (hq.symm.trans hp)
        subst this
        exact phase1Aux_lookup_mono env rest _ m' _ h
          (by rw [mapLookup_insert_self]; rfl)
    · by_cases ha : validFullID a = true
      · rw [if_pos ha] at h
        split at h
        · simp at h
        · rename_i q _
          exact ih _ _ h name hmem hv p hp
      · rw [if_neg ha] at h
        exact ih _ _ h name hmem hv p hp

/-- Phase 1 preserves key distinctness. -/
theorem phase1Aux_nodup (env : Env) :
    ∀ (l : List String) (m m' : PMap), phase1Aux env l m = Except.ok m' →
    (m.map Prod.fst).Nodup → (m'.map Prod.fst).Nodup := by
  intro l
  induction l with
  | nil =>
    intro m m' h hm
    cases h; exact hm
  | cons a rest ih =>
    intro m m' h hm
    simp only [phase1Aux] at h
    by_cases ha : validFullID a = true
    · rw [if_pos ha] at h
      split at h
      · simp at h
      · rename_i p _
        exact ih _ _ h (nodupKeys_mapInsert _ _ _ hm)
    · rw [if_neg ha] at h
      exact ih _ _ h hm

/-- Every binding Phase 1 produces is keyed by its record's identity. -/
theorem phase1Aux_keyID (env : Env) :
    ∀ (l : List String) (m m' : PMap), phase1Aux env l m = Except.ok m' →
    (∀ kv ∈ m, kv.1 = kv.2.GetID) → ∀ kv ∈ m', kv.1 = kv.2.GetID := by
  intro l
  induction l with
  | nil =>
    intro m m' h hm
    cases h; exact hm
  | cons a rest ih =>
    intro m m' h hm
    simp only [phase1Aux] at h
    by_cases ha : validFullID a = true
    · rw [if_pos ha] at h
      split at h
      · simp at h
      · rename_i p _
        refine ih _ _ h ?_
        intro kv hkv
        rcases mem_mapInsert _ _ _ _ hkv with hin | rfl
        · exact hm kv hin
        · rfl
    · rw [if_neg ha] at h
      exact ih _ _ h hm

/-- Every binding Phase 1 produces either was in the accumulator or stems
from a matching root entry whose config decoded to exactly that record. -/
theorem phase1Aux_sound (env : Env) :
    ∀ (l : List String) (m m' : PMap), phase1Aux env l m = Except.ok m' →
    ∀ kv ∈ m', kv ∈ m ∨ ∃ name, name ∈ l ∧ validFullID name = true ∧
      env.config name = some kv.2 ∧ kv.1 = kv.2.GetID := by
  intro l
  induction l with
  | nil =>
    intro m m' h kv hkv
    cases h; exact Or.inl hkv
  | cons a rest ih =>
    intro m m' h kv hkv
    simp only [phase1Aux] at h
    by_cases ha : validFullID a = true
    · rw [if_pos ha] at h
      split at h
      · simp at h
      · rename_i p heq
        rcases ih _ _ h kv hkv with hin | ⟨name, hn, hv, hc, hk⟩
        · rcases mem_mapInsert _ _ _ _ hin with hin' | rfl
          · exact Or.inl hin'
          · exact Or.inr ⟨a, List.mem_cons_self a rest, ha,
              (loadPlugin_ok_iff env a p).mp heq, rfl⟩
        · exact Or.inr ⟨name, List.mem_cons_of_mem a hn, hv, hc, hk⟩
    · rw [if_neg ha] at h
      rcases ih _ _ h kv hkv with hin | ⟨name, hn, hv, hc, hk⟩
      · exact Or.inl hin
      · exact Or.inr ⟨name, List.mem_cons_of_mem a hn, hv, hc, hk⟩

/-! ## Phase-2 lemmas -/

theorem rewriteRootfs_pluginObj (cfg : ManagerConfig) (p : Plugin) :
    (rewriteRootfs cfg p).PluginObj = p.PluginObj := by
  unfold rewriteRootfs; split <;> rfl

theorem rewriteRootfs_propagatedMount (cfg : ManagerConfig) (p : Plugin) :
    (rewriteRootfs cfg p).PropagatedMount = p.PropagatedMount := by
  unfold rewriteRootfs; split <;> rfl

theorem rewriteRootfs_of_empty (cfg : ManagerConfig) (p : Plugin)
    (h : p.Rootfs = "") : rewriteRootfs cfg p = p := by
  unfold rewriteRootfs
  rw [if_neg (by simp [h])]

theorem rewriteRootfs_of_nonempty (cfg : ManagerConfig) (p : Plugin)
    (h : p.Rootfs ≠ "") :
    (rewriteRootfs cfg p).Rootfs = joinPath (joinPath cfg.Root p.PluginObj.ID) "rootfs" := by
  unfold rewriteRootfs
  rw [if_pos (by simpa using h)]

/-- The propagation loop never changes the serialized object or `Rootfs`. -/
theorem propLoop_pluginObj (o : Oracle) :
    ∀ (ts : List InterfaceType) (p : Plugin),
      (propLoop o p ts).1.PluginObj = p.PluginObj ∧
      (propLoop o p ts).1.Rootfs = p.Rootfs := by
  intro ts
  induction ts with
  | nil => intro p; exact ⟨rfl, rfl⟩
  | cons typ rest ih =>
    intro p
    simp only [propLoop]
    split
    · split
      · split
        · exact ih _
        · exact ⟨rfl, rfl⟩
      · exact ih p
    · exact ih p

/-- Every event the propagation loop emits is the `MkdirAll` of the join
of `Rootfs` and the declared mount-propagation path, with mode `0755`. -/
theorem propLoop_events_mkdir (o : Oracle) :
    ∀ (ts : List InterfaceType) (p : Plugin) (ev : Event),
      ev ∈ (propLoop o p ts).2.1 →
      ev = Event.mkdir (joinPath p.Rootfs p.PluginObj.Config.PropagatedMount) 493 := by
  intro ts
  induction ts with
  | nil => intro p ev h; simp [propLoop] at h
  | cons typ rest ih =>
    intro p ev h
    simp only [propLoop] at h
    split at h
    · split at h
      · split at h
        · rcases List.mem_cons.mp h with rfl | hmem
          · rfl
          · have := ih _ ev hmem
            exact this
        · rcases List.mem_singleton.mp h with rfl
          rfl
      · exact ih p ev h
    · exact ih p ev h

/-- With no matching capability (or an empty declared path) the loop is a
no-op: the record is unchanged, nothing is created, no early return. -/
theorem propLoop_no_match (o : Oracle) :
    ∀ (ts : List InterfaceType) (p : Plugin),
      (ts.any matchingType = false ∨ p.PluginObj.Config.PropagatedMount = "") →
      propLoop o p ts = (p, [], true) := by
  intro ts
  induction ts with
  | nil => intro p _; rfl
  | cons typ rest ih =>
    intro p h
    rcases h with h | h
    · rw [List.any_cons] at h
      have h1 : matchingType typ = false := by
        cases hmt : matchingType typ
        · rfl
        · rw [hmt] at h; simp at h
      have h2 : rest.any matchingType = false := by
        cases hr : rest.any matchingType
        · rfl
        · rw [hr] at h; simp at h
      simp only [propLoop]
      rw [if_neg (by simp [h1])]
      exact ih p (Or.inl h2)
    · simp only [propLoop]
      by_cases hm : matchingType typ = true
      · rw [if_pos hm, if_neg (by simp [h])]
        exact ih p (Or.inr h)
      · rw [if_neg hm]
        exact ih p (Or.inr h)

/-- With some matching capability and a non-empty declared path, the loop
calls `MkdirAll` on the joined path with mode `0755`. -/
theorem propLoop_match_mkdir (o : Oracle) :
    ∀ (ts : List InterfaceType) (p : Plugin), ts.any matchingType = true →
      p.PluginObj.Config.PropagatedMount ≠ "" →
      Event.mkdir (joinPath p.Rootfs p.PluginObj.Config.PropagatedMount) 493 ∈
        (propLoop o p ts).2.1 := by
  intro ts
  induction ts with
  | nil => intro p h; simp at h
  | cons typ rest ih =>
    intro p h hpm
    rw [List.any_cons] at h
    simp only [propLoop]
    by_cases hm : matchingType typ = true
    · rw [if_pos hm, if_pos (by simpa using hpm)]
      split
      · exact List.mem_cons_self _ _
      · exact List.mem_singleton.mpr rfl
    · have hmf : matchingType typ = false := by
        cases hmt : matchingType typ
        · rfl
        · exact absurd hmt hm
      rw [if_neg hm]
      rw [hmf] at h
      simp only [Bool.false_or] at h
      exact ih p h hpm

/-- With some matching capability and a non-empty declared path, the loop
sets `PropagatedMount` to the joined path (whatever the MkdirAll
outcomes). -/
theorem propLoop_match_pm (o : Oracle) :
    ∀ (ts : List InterfaceType) (p : Plugin), ts.any matchingType = true →
      p.PluginObj.Config.PropagatedMount ≠ "" →
      (propLoop o p ts).1.PropagatedMount =
        joinPath p.Rootfs p.PluginObj.Config.PropagatedMount := by
  intro ts
  induction ts with
  | nil => intro p h; simp at h
  | cons typ rest ih =>
    intro p h hpm
    rw [List.any_cons] at h
    simp only [propLoop]
    by_cases hm : matchingType typ = true
    · rw [if_pos hm, if_pos (by simpa using hpm)]
      split
      · cases hr : rest.any matchingType
        · rw [propLoop_no_match o rest _ (Or.inl hr)]
        · exact ih _ hr hpm
      · rfl
    · have hmf : matchingType typ = false := by
        cases hmt : matchingType typ
        · rfl
        · exact absurd hmt hm
      rw [if_neg hm]
      rw [hmf] at h
      simp only [Bool.false_or] at h
      exact ih p h hpm

/-- A Phase-2 task never changes the serialized plugin object. -/
theorem phase2Task_pluginObj (cfg : ManagerConfig) (o : Oracle) (p : Plugin) :
    (phase2Task cfg o p).plugin.PluginObj = p.PluginObj := by
  unfold phase2Task
  split
  · rfl
  · dsimp only
    split
    · exact (propLoop_pluginObj o _ _).1.trans (rewriteRootfs_pluginObj cfg p)
    · exact (propLoop_pluginObj o _ _).1.trans (rewriteRootfs_pluginObj cfg p)

/-- A Phase-2 task never changes the record's identity. -/
theorem phase2Task_GetID (cfg : ManagerConfig) (o : Oracle) (p : Plugin) :
    (phase2Task cfg o p).plugin.GetID = p.GetID := by
  unfold Plugin.GetID
  rw [phase2Task_pluginObj]

/-- The events of a task that did not reach its publish step are only the
reattach attempt and MkdirAll calls. -/
theorem phase2Task_unpublished_events (cfg : ManagerConfig) (o : Oracle) (p : Plugin)
    (h : (phase2Task cfg o p).published = false) :
    ∀ ev ∈ (phase2Task cfg o p).events,
      ev = Event.restoreCall p.GetID ∨ ∃ path m, ev = Event.mkdir path m := by
  intro ev hev
  unfold phase2Task at h hev
  by_cases hr : o.restoreOk p.GetID = false
  · rw [if_pos hr] at hev
    rcases List.mem_singleton.mp hev with rfl
    exact Or.inl rfl
  · rw [if_neg hr] at h hev
    dsimp only at h hev
    split at hev
    · rename_i hflag
      rw [if_pos hflag] at h
      simp at h
    · rcases List.mem_cons.mp hev with rfl | hmem
      · exact Or.inl rfl
      · have := propLoop_events_mkdir o _ _ ev hmem
        exact Or.inr ⟨_, _, this⟩

/-- A task that did not reach its publish step calls neither
`Store.Update` nor `enable`. -/
theorem phase2Task_unpublished_no_calls (cfg : ManagerConfig) (o : Oracle) (p : Plugin)
    (h : (phase2Task cfg o p).published = false) (id : String) :
    Event.storeUpdate id ∉ (phase2Task cfg o p).events ∧
    Event.enableCall id ∉ (phase2Task cfg o p).events := by
  constructor <;> intro hev <;>
    rcases phase2Task_unpublished_events cfg o p h _ hev with h1 | ⟨path, md, h2⟩ <;>
    simp_all

/-- A task that reached its publish step attempts `enable` exactly when
live-restore is off and the record's `Enabled` flag is set. -/
theorem phase2Task_published_enable (cfg : ManagerConfig) (o : Oracle) (p : Plugin)
    (h : (phase2Task cfg o p).published = true) :
    (phase2Task cfg o p).enableAttempted = (!cfg.LiveRestoreEnabled && p.IsEnabled) ∧
    ((Event.enableCall p.GetID ∈ (phase2Task cfg o p).events) ↔
      (!cfg.LiveRestoreEnabled && p.IsEnabled) = true) := by
  by_cases hr : o.restoreOk p.GetID = false
  · unfold phase2Task at h
    rw [if_pos hr] at h
    simp at h
  · have hEn : (propLoop o (rewriteRootfs cfg p)
        (rewriteRootfs cfg p).PluginObj.Config.Interface.Types).1.IsEnabled = p.IsEnabled := by
      unfold Plugin.IsEnabled
      rw [(propLoop_pluginObj o _ _).1, rewriteRootfs_pluginObj]
    have hID : (propLoop o (rewriteRootfs cfg p)
        (rewriteRootfs cfg p).PluginObj.Config.Interface.Types).1.GetID = p.GetID := by
      unfold Plugin.GetID
      rw [(propLoop_pluginObj o _ _).1, rewriteRootfs_pluginObj]
    unfold phase2Task at h ⊢
    rw [if_neg hr] at h ⊢
    dsimp only at h ⊢
    split at h
    · rename_i hflag
      rw [if_pos hflag]
      dsimp only
      rw [hEn, hID]
      refine ⟨rfl, ?_⟩
      by_cases hatt : (!cfg.LiveRestoreEnabled && p.IsEnabled) = true
      · rw [if_pos hatt]
        constructor
        · intro _; exact hatt
        · intro _
          refine List.mem_cons_of_mem _ (List.mem_append.mpr (Or.inr ?_))
          exact List.mem_singleton.mpr rfl
      · rw [if_neg hatt, List.append_nil]
        constructor
        · intro hmem
          exfalso
          rcases List.mem_cons.mp hmem with he | hmem2
          · simp at he
          · rcases List.mem_append.mp hmem2 with h5 | h6
            · have := propLoop_events_mkdir o _ _ _ h5
              simp at this
            · simp at h6
        · intro hc
          exact absurd hc hatt
    · simp at h

/-- Tasks of plugins whose identity differs from `k` never touch the
Store's binding at `k`. -/
theorem applyTasks_frame (cfg : ManagerConfig) (o : Oracle) :
    ∀ (l : List (String × Plugin)) (m0 : PMap) (k : String),
      (∀ kv ∈ l, kv.2.GetID ≠ k) →
      mapLookup (applyTasks m0 (l.map (fun kv => phase2Task cfg o kv.2))) k =
        mapLookup m0 k := by
  intro l
  induction l with
  | nil => intro m0 k _; rfl
  | cons a rest ih =>
    intro m0 k h
    simp only [List.map_cons, applyTasks]
    rw [ih _ k (fun kv hkv => h kv (List.mem_cons_of_mem a hkv))]
    have ha : (phase2Task cfg o a.2).plugin.GetID ≠ k := by
      rw [phase2Task_GetID]
      exact h a (List.mem_cons_self a rest)
    split
    · exact mapLookup_insert_ne m0 _ k _ (Ne.symm ha)
    · rfl

/-- Store contents after all Phase-2 tasks, at the key of a loaded record:
the task's record if that task published, the Phase-1 contents if not. -/
theorem applyTasks_lookup (cfg : ManagerConfig) (o : Oracle) :
    ∀ (l : List (String × Plugin)) (m0 : PMap),
      (l.map Prod.fst).Nodup →
      (∀ kv ∈ l, kv.1 = kv.2.GetID) →
      ∀ kv ∈ l,
        mapLookup (applyTasks m0 (l.map (fun kv => phase2Task cfg o kv.2))) kv.1 =
          (if (phase2Task cfg o kv.2).published = true
            then some (phase2Task cfg o kv.2).plugin
            else mapLookup m0 kv.1) := by
  intro l
  induction l with
  | nil => intro m0 _ _ kv hkv; cases hkv
  | cons a rest ih =>
    intro m0 hnd hkey kv hkv
    simp only [List.map_cons, applyTasks]
    rcases List.mem_cons.mp hkv with rfl | hmem
    · have hframe : ∀ kv' ∈ rest, kv'.2.GetID ≠ kv.1 := by
        intro kv' hkv' he
        have h1 : kv'.1 = kv.1 := (hkey kv' (List.mem_cons_of_mem _ hkv')).trans he
        have h2 : kv.1 ∈ rest.map Prod.fst := h1 ▸ List.mem_map_of_mem Prod.fst hkv'
        exact (List.nodup_cons.mp hnd).1 h2
      rw [applyTasks_frame cfg o rest _ kv.1 hframe]
      have hid : (phase2Task cfg o kv.2).plugin.GetID = kv.1 := by
        rw [phase2Task_GetID]
        exact (hkey kv (List.mem_cons_self _ _)).symm
      by_cases hpub : (phase2Task cfg o kv.2).published = true
      · rw [if_pos hpub, if_pos hpub, ← hid, mapLookup_insert_self]
      · rw [if_neg hpub, if_neg hpub]
    · have hne : kv.1 ≠ (phase2Task cfg o a.2).plugin.GetID := by
        rw [phase2Task_GetID]
        intro he
        have h1 : kv.1 = a.1 := he.trans (hkey a (List.mem_cons_self _ _)).symm
        have h2 : kv.1 ∈ rest.map Prod.fst := List.mem_map_of_mem Prod.fst hmem
        rw [h1] at h2
        exact (List.nodup_cons.mp hnd).1 h2
      rw [ih _ (List.nodup_cons.mp hnd).2
        (fun kv' h' => hkey kv' (List.mem_cons_of_mem _ h')) kv hmem]
      by_cases hpub2 : (phase2Task cfg o kv.2).published = true
      · rw [if_pos hpub2, if_pos hpub2]
      · rw [if_neg hpub2, if_neg hpub2]
        split
        · exact mapLookup_insert_ne m0 _ kv.1 _ hne
        · rfl

/-! ## reload / NewManager unfolding lemmas -/

theorem reload_of_phase1_ok (cfg : ManagerConfig) (env : Env) (o : Oracle)
    (store0 : PMap) (m : PMap) (hroot : env.rootOk = true)
    (h : phase1 env = Except.ok m) :
    reload cfg env o store0 =
      ⟨Except.ok (), m, m.map (fun kv => phase2Task cfg o kv.2),
        applyTasks m (m.map (fun kv => phase2Task cfg o kv.2)),
        Event.setAll (m.map (fun kv => kv.1)) ::
          ((m.map (fun kv => phase2Task cfg o kv.2)).map TaskResult.events).flatten⟩ := by
  unfold reload
  rw [if_neg (by simp [hroot]), h]

theorem reload_of_phase1_error (cfg : ManagerConfig) (env : Env) (o : Oracle)
    (store0 : PMap) (e : String) (hroot : env.rootOk = true)
    (h : phase1 env = Except.error e) :
    reload cfg env o store0 = ⟨Except.error e, [], [], store0, []⟩ := by
  unfold reload
  rw [if_neg (by simp [hroot]), h]

theorem NewManager_eq_reload (nm : NMEnv) (cfg : ManagerConfig) (env : Env)
    (o : Oracle) (store0 : PMap) (h1 : nm.mkdirRootOk = true)
    (h2 : nm.mkdirExecRootOk = true) (h3 : nm.executorClientOk = true) :
    NewManager nm cfg env o store0 = reload cfg env o store0 := by
  unfold NewManager
  rw [if_neg (by simp [h1]), if_neg (by simp [h2]), if_neg (by simp [h3])]

/-- While a task has not reached its publish step the record equals the
propagation loop's result on the rewritten record. -/
theorem phase2Task_plugin_eq_loop (cfg : ManagerConfig) (o : Oracle) (p : Plugin)
    (hres : o.restoreOk p.GetID = true) :
    (phase2Task cfg o p).plugin =
      (propLoop o (rewriteRootfs cfg p)
        (rewriteRootfs cfg p).PluginObj.Config.Interface.Types).1 := by
  unfold phase2Task
  rw [if_neg (by simp [hres])]
  dsimp only
  split <;> rfl

/-- MkdirAll events of a task are exactly the propagation loop's. -/
theorem phase2Task_mkdir_in_loop (cfg : ManagerConfig) (o : Oracle) (p : Plugin)
    (hres : o.restoreOk p.GetID = true) (path : String) (mode : Nat) :
    Event.mkdir path mode ∈ (phase2Task cfg o p).events ↔
      Event.mkdir path mode ∈ (propLoop o (rewriteRootfs cfg p)
        (rewriteRootfs cfg p).PluginObj.Config.Interface.Types).2.1 := by
  unfold phase2Task
  rw [if_neg (by simp [hres])]
  dsimp only
  split
  · constructor
    · intro hmem
      rcases List.mem_cons.mp hmem with he | hmem2
      · simp at he
      · rcases List.mem_append.mp hmem2 with h3 | h4
        · rcases List.mem_append.mp h3 with h5 | h6
          · exact h5
          · simp at h6
        · split at h4 <;> simp at h4
    · intro hloop
      exact List.mem_cons_of_mem _
        (List.mem_append.mpr (Or.inl (List.mem_append.mpr (Or.inl hloop))))
  · constructor
    · intro hmem
      rcases List.mem_cons.mp hmem with he | hmem2
      · simp at he
      · exact hmem2
    · intro hloop
      exact List.mem_cons_of_mem _ hloop


/-! ## The claims -/


/-- C1: if any root-directory entry matching the full-ID format has a
missing, unreadable or undecodable `config.json`, `NewManager` returns an
error, `SetAll` is never invoked, and the Plugin Store receives no records
from this reload (Phase 1 is all-or-nothing). -/
theorem C1_phase1_all_or_nothing (nm : NMEnv) (cfg : ManagerConfig) (env : Env)
    (o : Oracle) (store0 : PMap) (name : String) (hroot : env.rootOk = true)
    (hmem : name ∈ env.rootEntries) (hvalid : validFullID name = true)
    (hbad : env.config name = none) :
    (∃ e, (NewManager nm cfg env o store0).result = Except.error e) ∧
    (NewManager nm cfg env o store0).store = store0 ∧
    ∀ ids, Event.setAll ids ∉ (NewManager nm cfg env o store0).events := by
  have hphase1 : ∀ m, phase1 env ≠ Except.ok m := by
    intro m hm
    have hsm := phase1Aux_ok_all_loaded env env.rootEntries [] m hm name hmem hvalid
    rw [hbad] at hsm
    simp at hsm
  unfold NewManager
  cases hnm1 : nm.mkdirRootOk with
  | false =>
    rw [if_pos (by simp [hnm1])]
    exact ⟨⟨_, rfl⟩, rfl, fun ids => List.not_mem_nil _⟩
  | true =>
    rw [if_neg (by simp [hnm1])]
    cases hnm2 : nm.mkdirExecRootOk with
    | false =>
      rw [if_pos (by simp [hnm2])]
      exact ⟨⟨_, rfl⟩, rfl, fun ids => List.not_mem_nil _⟩
    | true =>
      rw [if_neg (by simp [hnm2])]
      cases hnm3 : nm.executorClientOk with
      | false =>
        rw [if_pos (by simp [hnm3])]
        exact ⟨⟨_, rfl⟩, rfl, fun ids => List.not_mem_nil _⟩
      | true =>
        rw [if_neg (by simp [hnm3])]
        cases hp : phase1 env with
        | ok m => exact absurd hp (hphase1 m)
        | error e =>
          rw [reload_of_phase1_error cfg env o store0 e hroot hp]
          exact ⟨⟨e, rfl⟩, rfl, fun ids => List.not_mem_nil _⟩

theorem C1_witness :
    (∃ e, (NewManager ⟨true, true, true⟩ cfgA envBad oracleOK []).result = Except.error e) ∧
    (NewManager ⟨true, true, true⟩ cfgA envBad oracleOK []).store = [] ∧
    ∀ ids, Event.setAll ids ∉ (NewManager ⟨true, true, true⟩ cfgA envBad oracleOK []).events :=
  C1_phase1_all_or_nothing ⟨true, true, true⟩ cfgA envBad oracleOK [] idA rfl
    (List.mem_singleton.mpr rfl) (by decide) rfl

/-- C2: for a known plugin with a Controller whose exit signal is open,
`StateChanged` on an Exit transition closes the exit signal, then removes
the plugin's on-disk state unconditionally, then attempts the unmount iff
`PropagatedMount` is non-empty (its outcome `uo` changing nothing else),
then re-invokes enable iff the restart intent read under the lock was set
— in exactly that order. -/
theorem C2_stateChanged_exit_order (store : PMap) (cMap : String → Option controller)
    (uo : String → Bool) (id : String) (p : Plugin) (c : controller)
    (hs : mapLookup store id = some p) (hc : cMap id = some c)
    (hx : c.exitChan = some ChanState.isOpen) :
    StateChanged store cMap uo id PState.stateExit =
      SCResult.ok
        (fun k => if k == id then some { c with exitChan := some ChanState.closed }
          else cMap k)
        ([Event.closeExit id, Event.removeFromDisk id]
          ++ (if p.PropagatedMount != "" then
                [Event.unmount p.PropagatedMount (uo p.PropagatedMount)] else [])
          ++ (if c.restart then [Event.enableCall p.GetID] else [])) ∧
    ((Event.enableCall p.GetID ∈
        ([Event.closeExit id, Event.removeFromDisk id]
          ++ (if p.PropagatedMount != "" then
                [Event.unmount p.PropagatedMount (uo p.PropagatedMount)] else [])
          ++ (if c.restart then [Event.enableCall p.GetID] else []))) ↔
      c.restart = true) := by
  constructor
  · unfold StateChanged
    rw [hs, hc]
    dsimp only
    rw [hx]
  · cases hr : c.restart <;>
      by_cases hpm : (p.PropagatedMount != "") = true <;>
      simp [hr, hpm]

theorem C2_witness :
    StateChanged storeA cMapA (fun _ => false) idA PState.stateExit =
      SCResult.ok
        (fun k => if k == idA then some { cA with exitChan := some ChanState.closed }
          else cMapA k)
        ([Event.closeExit idA, Event.removeFromDisk idA]
          ++ (if pluginA.PropagatedMount != "" then
                [Event.unmount pluginA.PropagatedMount false] else [])
          ++ (if cA.restart then [Event.enableCall pluginA.GetID] else [])) ∧
    ((Event.enableCall pluginA.GetID ∈
        ([Event.closeExit idA, Event.removeFromDisk idA]
          ++ (if pluginA.PropagatedMount != "" then
                [Event.unmount pluginA.PropagatedMount false] else [])
          ++ (if cA.restart then [Event.enableCall pluginA.GetID] else []))) ↔
      cA.restart = true) :=
  C2_stateChanged_exit_order storeA cMapA (fun _ => false) idA pluginA cA rfl rfl rfl

/-- C5: `StateChanged` on an Exit transition for an identity absent from
the Plugin Store returns the lookup error to the caller, leaves every
Controller untouched and performs no effect at all. -/
theorem C5_unknown_identity (store : PMap) (cMap : String → Option controller)
    (uo : String → Bool) (id : String) (h : mapLookup store id = none) :
    StateChanged store cMap uo id PState.stateExit =
      SCResult.errRes "plugin not found" cMap [] := by
  unfold StateChanged
  rw [h]

theorem C5_witness :
    StateChanged [] (fun _ => none) (fun _ => true) idA PState.stateExit =
      SCResult.errRes "plugin not found" (fun _ => none) [] :=
  C5_unknown_identity [] (fun _ => none) (fun _ => true) idA rfl

/-- C9: if the Plugin Store resolves the identity but the Controller table
has no entry for it, the handler dereferences a nil Controller and faults;
a total embedding therefore requires the Controller lookup to be `some`
under the handler's precondition. -/
theorem C9_nil_controller_faults (store : PMap) (cMap : String → Option controller)
    (uo : String → Bool) (id : String) (p : Plugin)
    (hs : mapLookup store id = some p) (hc : cMap id = none) :
    StateChanged store cMap uo id PState.stateExit = SCResult.panicRes := by
  unfold StateChanged
  rw [hs, hc]

theorem C9_witness :
    StateChanged storeA (fun _ => none) (fun _ => true) idA PState.stateExit =
      SCResult.panicRes :=
  C9_nil_controller_faults storeA (fun _ => none) (fun _ => true) idA pluginA rfl rfl

/-- C3: in a Phase-2 task whose reattach step succeeded, `PropagatedMount`
is computed as the join of the (rewritten) `Rootfs` with the record's
declared mount-propagation path and its directory created with mode `0755`
exactly when some declared capability has type `volumedriver` or
`graphdriver`, prefix `docker`, and a version starting with `1.`, and the
declared path is non-empty; a record with no matching capability keeps its
loaded `PropagatedMount` (so empty stays empty) and no directory is
created. -/
theorem C3_propagated_mount (cfg : ManagerConfig) (o : Oracle) (p : Plugin)
    (hres : o.restoreOk p.GetID = true) :
    ((∃ path mode, Event.mkdir path mode ∈ (phase2Task cfg o p).events) ↔
      (p.PluginObj.Config.Interface.Types.any matchingType = true ∧
        p.PluginObj.Config.PropagatedMount ≠ "")) ∧
    (∀ path mode, Event.mkdir path mode ∈ (phase2Task cfg o p).events →
      path = joinPath (rewriteRootfs cfg p).Rootfs p.PluginObj.Config.PropagatedMount ∧
      mode = 493) ∧
    (p.PluginObj.Config.Interface.Types.any matchingType = false →
      (phase2Task cfg o p).plugin.PropagatedMount = p.PropagatedMount) ∧
    (p.PluginObj.Config.Interface.Types.any matchingType = true →
      p.PluginObj.Config.PropagatedMount ≠ "" →
      (phase2Task cfg o p).plugin.PropagatedMount =
        joinPath (rewriteRootfs cfg p).Rootfs p.PluginObj.Config.PropagatedMount) := by
  have hobj : (rewriteRootfs cfg p).PluginObj = p.PluginObj :=
    rewriteRootfs_pluginObj cfg p
  have hpm0 : (rewriteRootfs cfg p).PropagatedMount = p.PropagatedMount :=
    rewriteRootfs_propagatedMount cfg p
  have hplug := phase2Task_plugin_eq_loop cfg o p hres
  refine ⟨⟨?_, ?_⟩, ?_, ?_, ?_⟩
  · rintro ⟨path, mode, hmem⟩
    rw [phase2Task_mkdir_in_loop cfg o p hres path mode] at hmem
    by_contra hcond
    have hsplit : (rewriteRootfs cfg p).PluginObj.Config.Interface.Types.any matchingType = false ∨
        (rewriteRootfs cfg p).PluginObj.Config.PropagatedMount = "" := by
      rw [hobj]
      by_cases h1 : p.PluginObj.Config.Interface.Types.any matchingType = true
      · by_cases h2 : p.PluginObj.Config.PropagatedMount = ""
        · exact Or.inr h2
        · exact absurd ⟨h1, h2⟩ hcond
      · refine Or.inl ?_
        cases hh : p.PluginObj.Config.Interface.Types.any matchingType
        · rfl
        · exact absurd hh h1
    rw [propLoop_no_match o _ _ hsplit] at hmem
    simp at hmem
  · rintro ⟨hany, hpm⟩
    have hmem := propLoop_match_mkdir o
      ((rewriteRootfs cfg p).PluginObj.Config.Interface.Types) (rewriteRootfs cfg p)
      (by rw [hobj]; exact hany) (by rw [hobj]; exact hpm)
    exact ⟨_, _, (phase2Task_mkdir_in_loop cfg o p hres _ _).mpr hmem⟩
  · intro path mode hmem
    rw [phase2Task_mkdir_in_loop cfg o p hres path mode] at hmem
    have hsh := propLoop_events_mkdir o _ _ _ hmem
    injection hsh with hpath hmode
    rw [hobj] at hpath
    exact ⟨hpath, hmode⟩
  · intro hany
    have hany1 : (rewriteRootfs cfg p).PluginObj.Config.Interface.Types.any matchingType = false := by
      rw [hobj]; exact hany
    rw [hplug, propLoop_no_match o _ _ (Or.inl hany1)]
    exact hpm0
  · intro hany hpm
    have hany1 : (rewriteRootfs cfg p).PluginObj.Config.Interface.Types.any matchingType = true := by
      rw [hobj]; exact hany
    have hpm1 : (rewriteRootfs cfg p).PluginObj.Config.PropagatedMount ≠ "" := by
      rw [hobj]; exact hpm
    rw [hplug, propLoop_match_pm o _ _ hany1 hpm1, hobj]

theorem C3_witness :
    oracleOK.restoreOk pluginA.GetID = true ∧
    (∃ path mode, Event.mkdir path mode ∈ (phase2Task cfgA oracleOK pluginA).events) := by
  have h := C3_propagated_mount cfgA oracleOK pluginA rfl
  exact ⟨rfl, h.1.mpr ⟨by decide, by decide⟩⟩

/-- C4: once Phase 1 succeeded, reload succeeds whatever the individual
Phase-2 outcomes; one task per loaded record runs, every task's effects
are part of reload's trace (the wait barrier), and each task that reached
its publish step has its updated record in the Store — independently of
any other task failing. -/
theorem C4_phase2_fault_isolated (cfg : ManagerConfig) (env : Env) (o : Oracle)
    (store0 : PMap) (m : PMap) (hroot : env.rootOk = true)
    (h : phase1 env = Except.ok m) :
    (reload cfg env o store0).result = Except.ok () ∧
    (reload cfg env o store0).tasks.length = m.length ∧
    (∀ t ∈ (reload cfg env o store0).tasks, ∀ ev ∈ t.events,
      ev ∈ (reload cfg env o store0).events) ∧
    (∀ kv ∈ m, (phase2Task cfg o kv.2).published = true →
      mapLookup (reload cfg env o store0).store kv.1 =
        some (phase2Task cfg o kv.2).plugin) := by
  rw [reload_of_phase1_ok cfg env o store0 m hroot h]
  refine ⟨rfl, by simp, ?_, ?_⟩
  · intro t ht ev hev
    refine List.mem_cons_of_mem _ ?_
    rw [List.mem_flatten]
    exact ⟨t.events, List.mem_map_of_mem TaskResult.events ht, hev⟩
  · intro kv hkv hpub
    have hnd : (m.map Prod.fst).Nodup :=
      phase1Aux_nodup env env.rootEntries [] m h (by simp)
    have hkey : ∀ kv' ∈ m, kv'.1 = kv'.2.GetID :=
      phase1Aux_keyID env env.rootEntries [] m h (by simp)
    rw [applyTasks_lookup cfg o m m hnd hkey kv hkv, if_pos hpub]

theorem C4_witness :
    phase1 envTwo = Except.ok mTwo ∧
    (phase2Task cfgA oracleFailB pluginB).published = false ∧
    (reload cfgA envTwo oracleFailB []).result = Except.ok () ∧
    mapLookup (reload cfgA envTwo oracleFailB []).store idA =
      some (phase2Task cfgA oracleFailB pluginA).plugin := by
  have h := C4_phase2_fault_isolated cfgA envTwo oracleFailB [] mTwo rfl rfl
  exact ⟨rfl, by decide, h.1, h.2.2.2 (idA, pluginA) (by decide) (by decide)⟩

/-- C6: a Phase-2 task that reaches its re-enable step attempts enable
exactly when live-restore is off and the record's `Enabled` flag is true;
the enable outcome has no influence on the task, and reload succeeds
regardless of it once Phase 1 succeeded. -/
theorem C6_manual_restore (cfg : ManagerConfig) (o : Oracle) (p : Plugin)
    (h : (phase2Task cfg o p).published = true) :
    (phase2Task cfg o p).enableAttempted = (!cfg.LiveRestoreEnabled && p.IsEnabled) ∧
    ((Event.enableCall p.GetID ∈ (phase2Task cfg o p).events) ↔
      (!cfg.LiveRestoreEnabled && p.IsEnabled) = true) ∧
    (∀ (env : Env) (store0 : PMap) (m : PMap), env.rootOk = true →
      phase1 env = Except.ok m → (reload cfg env o store0).result = Except.ok ()) ∧
    (∀ (nm : NMEnv) (env : Env) (store0 : PMap) (m : PMap),
      nm.mkdirRootOk = true → nm.mkdirExecRootOk = true →
      nm.executorClientOk = true → env.rootOk = true →
      phase1 env = Except.ok m →
      (NewManager nm cfg env o store0).result = Except.ok ()) := by
  refine ⟨(phase2Task_published_enable cfg o p h).1,
    (phase2Task_published_enable cfg o p h).2, ?_, ?_⟩
  · intro env store0 m hroot hp
    rw [reload_of_phase1_ok cfg env o store0 m hroot hp]
  · intro nm env store0 m h1 h2 h3 hroot hp
    rw [NewManager_eq_reload nm cfg env o store0 h1 h2 h3,
      reload_of_phase1_ok cfg env o store0 m hroot hp]

theorem C6_witness :
    (phase2Task cfgA oracleOK pluginA).published = true ∧
    (phase2Task cfgA oracleOK pluginA).enableAttempted =
      (!cfgA.LiveRestoreEnabled && pluginA.IsEnabled) ∧
    ((Event.enableCall pluginA.GetID ∈ (phase2Task cfgA oracleOK pluginA).events) ↔
      (!cfgA.LiveRestoreEnabled && pluginA.IsEnabled) = true) := by
  have h := C6_manual_restore cfgA oracleOK pluginA (by decide)
  exact ⟨by decide, h.1, h.2.1⟩

/-- C7 counterexample: a record loaded with an empty `Rootfs` is published
back to the Store with `Rootfs` still empty rather than rewritten to
`{Root}/{ID}/rootfs`: the claimed unconditional rewrite does not happen. -/
theorem C7_counterexample :
    (phase2Task cfgA oracleOK pluginNoRootfs).published = true ∧
    (phase2Task cfgA oracleOK pluginNoRootfs).plugin.Rootfs = "" ∧
    joinPath (joinPath cfgA.Root pluginNoRootfs.PluginObj.ID) "rootfs" ≠ "" := by
  refine ⟨rfl, rfl, ?_⟩
  decide

/-- C7 (amended): in a Phase-2 task whose reattach step succeeded, the
Manager rewrites `Rootfs` to `{Root}/{ID}/rootfs` if and only if the
loaded record's `Rootfs` was non-empty; a record loaded with empty
`Rootfs` keeps it unchanged. -/
theorem C7_rootfs_rewrite (cfg : ManagerConfig) (o : Oracle) (p : Plugin)
    (hres : o.restoreOk p.GetID = true) :
    (p.Rootfs ≠ "" → (phase2Task cfg o p).plugin.Rootfs =
        joinPath (joinPath cfg.Root p.PluginObj.ID) "rootfs") ∧
    (p.Rootfs = "" → (phase2Task cfg o p).plugin.Rootfs = p.Rootfs) := by
  have hpl := phase2Task_plugin_eq_loop cfg o p hres
  constructor
  · intro hne
    rw [hpl, (propLoop_pluginObj o _ _).2, rewriteRootfs_of_nonempty cfg p hne]
  · intro he
    rw [hpl, (propLoop_pluginObj o _ _).2, rewriteRootfs_of_empty cfg p he]

theorem C7_witness :
    oracleOK.restoreOk pluginA.GetID = true ∧
    pluginA.Rootfs ≠ "" ∧
    (phase2Task cfgA oracleOK pluginA).plugin.Rootfs =
      joinPath (joinPath cfgA.Root pluginA.PluginObj.ID) "rootfs" :=
  ⟨rfl, by decide, (C7_rootfs_rewrite cfgA oracleOK pluginA rfl).1 (by decide)⟩

/-- C8: every record Phase 1 installs stems from a root entry matching the
full-ID format whose config decoded to exactly that record (non-matching
entries are never loaded, valid config or not); every matching entry whose
config decodes contributes a record keyed by its identity; and keys are
pairwise distinct. -/
theorem C8_matching_entries (env : Env) (m : PMap) (h : phase1 env = Except.ok m) :
    (∀ kv ∈ m, ∃ name, name ∈ env.rootEntries ∧ validFullID name = true ∧
      env.config name = some kv.2 ∧ kv.1 = kv.2.GetID) ∧
    (∀ name ∈ env.rootEntries, validFullID name = true →
      ∀ p, env.config name = some p → (mapLookup m p.GetID).isSome) ∧
    (m.map Prod.fst).Nodup := by
  refine ⟨?_, phase1Aux_complete env env.rootEntries [] m h,
    phase1Aux_nodup env env.rootEntries [] m h (by simp)⟩
  intro kv hkv
  rcases phase1Aux_sound env env.rootEntries [] m h kv hkv with hin | hex
  · exact absurd hin (List.not_mem_nil kv)
  · exact hex

theorem C8_witness :
    phase1 envMix = Except.ok [(idA, pluginA)] ∧
    validFullID "README" = false ∧
    envMix.config "README" = some pluginB ∧
    (∀ kv ∈ ([(idA, pluginA)] : PMap), ∃ name, name ∈ envMix.rootEntries ∧
      validFullID name = true ∧ envMix.config name = some kv.2 ∧ kv.1 = kv.2.GetID) := by
  have h := C8_matching_entries envMix [(idA, pluginA)] rfl
  exact ⟨rfl, by decide, rfl, h.1⟩

/-- C10: a Phase-2 task that fails before its publish step performs
neither the Store update nor the enable call, and the Store retains that
plugin's record exactly as Phase 1 installed it. -/
theorem C10_failed_task_frame (cfg : ManagerConfig) (env : Env) (o : Oracle)
    (store0 : PMap) (m : PMap) (kv : String × Plugin) (hroot : env.rootOk = true)
    (h : phase1 env = Except.ok m) (hkv : kv ∈ m)
    (hfail : (phase2Task cfg o kv.2).published = false) :
    mapLookup (reload cfg env o store0).store kv.1 = some kv.2 ∧
    (∀ id, Event.storeUpdate id ∉ (phase2Task cfg o kv.2).events ∧
           Event.enableCall id ∉ (phase2Task cfg o kv.2).events) := by
  have hnd : (m.map Prod.fst).Nodup :=
    phase1Aux_nodup env env.rootEntries [] m h (by simp)
  have hkey : ∀ kv' ∈ m, kv'.1 = kv'.2.GetID :=
    phase1Aux_keyID env env.rootEntries [] m h (by simp)
  constructor
  · rw [reload_of_phase1_ok cfg env o store0 m hroot h]
    rw [applyTasks_lookup cfg o m m hnd hkey kv hkv, if_neg (by simp [hfail])]
    exact mapLookup_of_mem m kv hnd hkv
  · exact fun id => phase2Task_unpublished_no_calls cfg o kv.2 hfail id

theorem C10_witness :
    phase1 envTwo = Except.ok mTwo ∧
    (phase2Task cfgA oracleFailB pluginB).published = false ∧
    mapLookup (reload cfgA envTwo oracleFailB []).store idB = some pluginB := by
  have h := C10_failed_task_frame cfgA envTwo oracleFailB [] mTwo (idB, pluginB)
    rfl rfl (by decide) (by decide)
  exact ⟨rfl, by decide, h.1⟩

end DockerPlugin
